import Mathlib

/-!
Verification development for the bioformats-bioboba repository: a shallow
embedding of its FASTA/FASTQ/SAM/VCF readers (record model, line parsers,
derived fields and query operations), together with theorems settling the
specification claims about them.

Files are modelled as lists of raw lines (`List Char` per line, as produced
by Python file iteration: every yielded line is non-empty and all but
possibly the last end with a newline character).  Reader objects become
explicit state values; generators become functions from the line list to a
list of records (or to `Except e` when the Python code can raise).
-/

/-- Characters stripped by Python's `str.strip()` with no arguments. -/
def pySpace (c : Char) : Bool :=
  c == ' ' || c == '\t' || c == '\n' || c == '\r' || c == '\x0b' || c == '\x0c'

/-- Model of Python `str.strip()`: drop leading and trailing whitespace. -/
def pyStrip (s : List Char) : List Char :=
  ((s.dropWhile pySpace).reverse.dropWhile pySpace).reverse

/-- Model of Python `str.rstrip('\n')`: drop all trailing newline characters. -/
def pyRStripNl (s : List Char) : List Char :=
  (s.reverse.dropWhile (fun c => c == '\n')).reverse

/-- Model of Python `str.lstrip('#')`: drop all leading hash characters. -/
def pyLStripHash (s : List Char) : List Char :=
  s.dropWhile (fun c => c == '#')

/-- Model of Python `str.split(sep)` with a one-character separator: empty
fields are kept, and the empty string splits to `[""]`. -/
def pySplit (sep : Char) : List Char → List (List Char)
  | [] => [[]]
  | c :: cs =>
    let r := pySplit sep cs
    if c == sep then
      [] :: r
    else
      match r with
      | [] => [[c]]
      | t :: ts => (c :: t) :: ts

/-- Model of Python `str.startswith(p)`. -/
def pyStartsWith (s p : List Char) : Bool :=
  p.isPrefixOf s

/-- Model of Python `sep.join(parts)` with a one-character separator. -/
def pyJoin (sep : Char) : List (List Char) → List Char
  | [] => []
  | [x] => x
  | x :: xs => x ++ sep :: pyJoin sep xs

/-- Numeric value of a non-empty list of decimal digit characters. -/
def digitsToNat (ds : List Char) : Nat :=
  ds.foldl (fun n c => 10 * n + (c.toNat - 48)) 0

/-- Model of Python `int(s)`: strip whitespace, allow one optional sign,
then require at least one decimal digit; `none` models `ValueError`. -/
def pyInt (s : List Char) : Option Int :=
  match pyStrip s with
  | [] => none
  | '-' :: ds =>
    if !ds.isEmpty && ds.all Char.isDigit then some (-(digitsToNat ds : Int)) else none
  | '+' :: ds =>
    if !ds.isEmpty && ds.all Char.isDigit then some (digitsToNat ds : Int) else none
  | ds =>
    if ds.all Char.isDigit then some (digitsToNat ds : Int) else none

/-- Decimal rendering of a natural number, as Python `str` produces it. -/
def natToChars (n : Nat) : List Char :=
  Nat.toDigits 10 n

/-- Decimal rendering of an integer, as Python `str` produces it. -/
def intToChars (i : Int) : List Char :=
  if i < 0 then '-' :: natToChars i.natAbs else natToChars i.toNat

/-- Model of Python `str.upper()` on ASCII text (the readers open their
files in ASCII or default text mode). -/
def pyUpper (s : List Char) : List Char :=
  s.map Char.toUpper

/-- Model of Python `d[k] = v` on an insertion-ordered string dictionary:
an existing key keeps its position and gets the new value, a new key is
appended at the end. -/
def pyDictInsert (d : List (List Char × List Char)) (k v : List Char) :
    List (List Char × List Char) :=
  if d.any (fun p => p.1 == k) then
    d.map (fun p => if p.1 == k then (k, v) else p)
  else
    d ++ [(k, v)]

/-- Model of Python `d.setdefault(k, []).append(v)` on an insertion-ordered
dictionary from strings to lists of strings. -/
def pyDictAppend (d : List (List Char × List (List Char))) (k v : List Char) :
    List (List Char × List (List Char)) :=
  if d.any (fun p => p.1 == k) then
    d.map (fun p => if p.1 == k then (p.1, p.2 ++ [v]) else p)
  else
    d ++ [(k, [v])]

/-- Record subclass for sequences (record.py `SequenceRecord`): FASTA leaves
`quality` as `none`, FASTQ stores one Phred score per base. -/
structure SequenceRecord where
  id : List Char
  sequence : List Char
  quality : Option (List Int)
deriving DecidableEq

/-- Record subclass for SAM alignments (record.py `AlignmentRecord`), with
the `end`/`flag` attributes the SAM parser assigns right after construction
(`end` is called `endPos` here because `end` is reserved in Lean). -/
structure AlignmentRecord where
  id : List Char
  chrom : List Char
  start : Int
  cigar : List Char
  mapq : Int
  endPos : Int
  flag : Int
deriving DecidableEq

/-- Record subclass for VCF variants (record.py `VariantRecord`), with the
`filter`/`qual` attributes the VCF parsers assign after construction
(`qual` is only set by the legacy reader in src/vcf_reader.py). -/
structure VariantRecord where
  id : List Char
  chrom : List Char
  pos : Int
  ref : List Char
  alt : List Char
  info : List (List Char × List Char)
  filter : List Char
  qual : Option ℚ
deriving DecidableEq

/-- Errors raised by the SAM/VCF readers that the claims mention. -/
inductive ReaderError
  | invalidRange
  | missingChromHeader
deriving DecidableEq

instance {ε α : Type} [DecidableEq ε] [DecidableEq α] : DecidableEq (Except ε α) :=
  fun a b =>
    match a, b with
    | .ok x, .ok y =>
      if h : x = y then isTrue (congrArg Except.ok h)
      else isFalse (fun hc => h (Except.ok.inj hc))
    | .error x, .error y =>
      if h : x = y then isTrue (congrArg Except.error h)
      else isFalse (fun hc => h (Except.error.inj hc))
    | .ok _, .error _ => isFalse (fun hc => Except.noConfusion hc)
    | .error _, .ok _ => isFalse (fun hc => Except.noConfusion hc)

namespace SamReader

/-- Character class `[MIDNSHP=X]` of the CIGAR regex in
`SamReader._calc_aligned_length`. -/
def cigarOp (c : Char) : Bool :=
  c == 'M' || c == 'I' || c == 'D' || c == 'N' || c == 'S' || c == 'H' ||
    c == 'P' || c == '=' || c == 'X'

/-- Scan loop modelling `re.findall(r"(\d+)([MIDNSHP=X])", cigar)`:
`pending` holds the digit run currently being read; a match is a maximal
digit run immediately followed by an operator character (no shorter run can
match, because inside a run every restart position sees the same
non-operator follower, so the regex scan yields exactly these pairs). -/
def cigarScan (pending : List Char) : List Char → List (Nat × Char)
  | [] => []
  | c :: cs =>
    if c.isDigit then cigarScan (pending ++ [c]) cs
    else if cigarOp c && !pending.isEmpty then
      (digitsToNat pending, c) :: cigarScan [] cs
    else cigarScan [] cs

/-- Model of `re.findall(r"(\d+)([MIDNSHP=X])", cigar)`. -/
def cigarFindAll (cigar : List Char) : List (Nat × Char) :=
  cigarScan [] cigar

/-- Model of `SamReader._calc_aligned_length`: 0 for an empty or `*` CIGAR,
otherwise the sum of the operands of reference-consuming operations. -/
def calcAlignedLength (cigar : List Char) : Nat :=
  if cigar.isEmpty || cigar == "*".data then 0
  else
    ((cigarFindAll cigar).filter
        (fun p => p.2 == 'M' || p.2 == 'D' || p.2 == 'N' || p.2 == '=' || p.2 == 'X')).foldl
      (fun acc p => acc + p.1) 0

/-- Model of one iteration of the loop in `SamReader.read`: `none` when the
line is skipped (header line, fewer than 11 fields, `*` reference, or an
integer-parse failure on POS/MAPQ/FLAG). -/
def readLine (line : List Char) : Option AlignmentRecord :=
  if pyStartsWith line "@".data then none
  else
    let fields := pySplit '\t' (pyStrip line)
    if fields.length < 11 || fields.get? 2 == some "*".data then none
    else
      let qname := fields.getD 0 []
      let flag := fields.getD 1 []
      let rname := fields.getD 2 []
      let pos := fields.getD 3 []
      let mapq := fields.getD 4 []
      let cigar := fields.getD 5 []
      match pyInt pos, (if mapq == "*".data then some (0 : Int) else pyInt mapq),
          pyInt flag with
      | some posInt, some mapqInt, some flagInt =>
        let alignedLen := calcAlignedLength cigar
        let endPos : Int := if alignedLen > 0 then posInt + (alignedLen : Int) - 1 else posInt
        some { id := qname, chrom := rname, start := posInt, cigar := cigar,
               mapq := mapqInt, endPos := endPos, flag := flagInt }
      | _, _, _ => none

/-- Model of `SamReader.read`: the reader seeks to the file start and then
yields one record per non-skipped line. -/
def read (lines : List (List Char)) : List AlignmentRecord :=
  lines.filterMap readLine

/-- Model of `SamReader.filter_by_region`: raise `ValueError` when
`start > end`, otherwise yield the records of `read` on the requested
chromosome whose interval overlaps `[start, end]`. -/
def filterByRegion (lines : List (List Char)) (chrom : List Char)
    (start end_ : Int) : Except ReaderError (List AlignmentRecord) :=
  if start > end_ then .error .invalidRange
  else
    .ok ((read lines).filter
      (fun rec => rec.chrom == chrom && decide (rec.start ≤ end_) &&
        decide (rec.endPos ≥ start)))

/-- Header-related state of a `SamReader` instance. -/
structure HeaderState where
  headerParsed : Bool
  header : List (List Char × List (List Char))
deriving DecidableEq

/-- State of a freshly constructed `SamReader`. -/
def initState : HeaderState :=
  { headerParsed := false, header := [] }

/-- Model of `SamReader._parse_header_line`: split the stripped line on
tabs, use the first token as tag and append the tab-join of the rest to the
tag's entry list. -/
def parseHeaderLine (hdr : List (List Char × List (List Char))) (line : List Char) :
    List (List Char × List (List Char)) :=
  match pySplit '\t' (pyStrip line) with
  | [] => hdr
  | tag :: rest => pyDictAppend hdr tag (pyJoin '\t' rest)

/-- Loop of `SamReader._parse_header`: consume header lines (those starting
with `@`) until the first non-header line. -/
def parseHeaderLoop (hdr : List (List Char × List (List Char))) :
    List (List Char) → List (List Char × List (List Char))
  | [] => hdr
  | line :: rest =>
    if pyStartsWith line "@".data then parseHeaderLoop (parseHeaderLine hdr line) rest
    else hdr

/-- Model of `SamReader._ensure_header_parsed`: parse the header and set the
flag unless the flag is already set. -/
def ensureHeaderParsed (st : HeaderState) (lines : List (List Char)) : HeaderState :=
  if st.headerParsed then st
  else { headerParsed := true, header := parseHeaderLoop st.header lines }

end SamReader

namespace VcfReader

/-- Header-related state of a biodatareader `VcfReader` instance. -/
structure State where
  headerParsed : Bool
  headerLines : List (List Char)
  columnHeader : List (List Char)
deriving DecidableEq

/-- State of a freshly constructed biodatareader `VcfReader`. -/
def initState : State :=
  { headerParsed := false, headerLines := [], columnHeader := [] }

/-- Loop of `VcfReader._parse_header` (biodatareader): collect `##` lines,
stop at the `#CHROM` line and record the column schema, skip anything else;
reaching the end of the file without a `#CHROM` line raises `ValueError`
(the error also carries the state the loop had mutated before raising). -/
def parseHeaderLoop (st : State) :
    List (List Char) → Except (ReaderError × State) State
  | [] => .error (.missingChromHeader, st)
  | line :: rest =>
    if pyStartsWith line "##".data then
      parseHeaderLoop { st with headerLines := st.headerLines ++ [pyStrip line] } rest
    else if pyStartsWith line "#CHROM".data then
      .ok { st with columnHeader := pySplit '\t' (pyLStripHash (pyStrip line)) }
    else
      parseHeaderLoop st rest

/-- Model of `VcfReader._parse_header` (biodatareader): a no-op once the
header flag is set; otherwise run the loop and set the flag on success. -/
def parseHeader (st : State) (lines : List (List Char)) :
    Except (ReaderError × State) State :=
  if st.headerParsed then .ok st
  else
    match parseHeaderLoop st lines with
    | .ok st' => .ok { st' with headerParsed := true }
    | .error e => .error e

/-- Model of `VcfReader._parse_info` (biodatareader): empty or `.` input
gives an empty mapping; otherwise each non-empty `;`-token either splits
once on its first `=` or becomes a flag entry with value `"True"`. -/
def parseInfo (infoStr : List Char) : List (List Char × List Char) :=
  if infoStr.isEmpty || infoStr == ".".data then []
  else
    (pySplit ';' infoStr).foldl
      (fun d kv =>
        if kv.isEmpty then d
        else if kv.contains '=' then
          pyDictInsert d (kv.takeWhile (fun c => !(c == '=')))
            ((kv.dropWhile (fun c => !(c == '='))).tail)
        else pyDictInsert d kv "True".data)
      []

/-- Model of one iteration of the loop in `VcfReader.read` (biodatareader):
skip `#` lines, lines with fewer than 5 tab fields, and lines whose POS
fails integer parsing. -/
def readLine (line : List Char) : Option VariantRecord :=
  if pyStartsWith line "#".data then none
  else
    let parts := pySplit '\t' (pyStrip line)
    if parts.length < 5 then none
    else
      let chrom := parts.getD 0 []
      match pyInt (parts.getD 1 []) with
      | none => none
      | some pos =>
        let ref := parts.getD 3 []
        let alt := parts.getD 4 []
        let filter_ := if parts.length > 6 then parts.getD 6 [] else ".".data
        let infoStr := if parts.length > 7 then parts.getD 7 [] else []
        some { id := chrom ++ ':' :: intToChars pos, chrom := chrom, pos := pos,
               ref := ref, alt := alt, info := parseInfo infoStr,
               filter := filter_, qual := none }

/-- Record sequence produced by `VcfReader.read` (biodatareader) when the
cursor is at the file start (the position every caller establishes). -/
def readRecords (lines : List (List Char)) : List VariantRecord :=
  lines.filterMap readLine

/-- Model of `VcfReader.read` (biodatareader) on a reader state: parse the
header first (which can fail), then yield the records. -/
def read (st : State) (lines : List (List Char)) :
    Except (ReaderError × State) (List VariantRecord × State) :=
  match parseHeader st lines with
  | .error e => .error e
  | .ok st' => .ok (readRecords lines, st')

/-- Model of `VcfReader.count_variants` (biodatareader): parse the header if
needed, then count every line that does not start with `#`. -/
def countVariants (st : State) (lines : List (List Char)) :
    Except (ReaderError × State) (Nat × State) :=
  match parseHeader st lines with
  | .error e => .error e
  | .ok st' => .ok ((lines.filter (fun l => !pyStartsWith l "#".data)).length, st')

/-- Model of `VcfReader.filter_by_region` (biodatareader): raise
`ValueError` when `start > end`, otherwise parse the header if needed and
yield the records with matching chromosome and `start <= pos <= end`. -/
def filterByRegion (st : State) (lines : List (List Char)) (chrom : List Char)
    (start end_ : Int) : Except (ReaderError × State) (List VariantRecord × State) :=
  if start > end_ then .error (.invalidRange, st)
  else
    match parseHeader st lines with
    | .error e => .error e
    | .ok st' =>
      .ok ((readRecords lines).filter
        (fun rec => rec.chrom == chrom && decide (start ≤ rec.pos) &&
          decide (rec.pos ≤ end_)), st')

/-- Model of the `RuntimeError` raised by `GenomicDataReader.__enter__`: it
wraps the file path and the underlying cause, and `fileOpenAtRaise` records
whether the underlying file was still open at the moment it was raised. -/
structure RuntimeErrorModel where
  path : List Char
  cause : ReaderError
  fileOpenAtRaise : Bool
deriving DecidableEq

/-- Successful result of `GenomicDataReader.__enter__`: the reader state
with its file resource open. -/
structure OpenReader where
  state : State
  fileOpen : Bool
deriving DecidableEq

/-- Model of `GenomicDataReader.__enter__` for a VCF reader: open the file,
parse the header; on any failure close the file first and raise a
`RuntimeError` wrapping the path and the cause. -/
def enter (path : List Char) (lines : List (List Char)) :
    Except RuntimeErrorModel OpenReader :=
  match parseHeader initState lines with
  | .ok st => .ok { state := st, fileOpen := true }
  | .error (e, _) => .error { path := path, cause := e, fileOpenAtRaise := false }

end VcfReader

namespace LegacyVcfReader

/-- Python exceptions the legacy src/vcf_reader.py reader can raise while
reading (its `read` has no try/except around QUAL/FILTER access). -/
inductive PyError
  | valueError
  | indexError
deriving DecidableEq

/-- Model of Python `float(s)` restricted to the decimal and exponent forms
`[sign] digits [. digits] [(e|E) [sign] digits]`; `none` models
`ValueError`. -/
def pyFloat (s0 : List Char) : Option ℚ :=
  let s1 := pyStrip s0
  let sgs : ℚ × List Char :=
    match s1 with
    | '-' :: t => (-1, t)
    | '+' :: t => (1, t)
    | t => (1, t)
  let s2 := sgs.2
  let mant := s2.takeWhile (fun c => !(c == 'e' || c == 'E'))
  let expTail := s2.dropWhile (fun c => !(c == 'e' || c == 'E'))
  let ip := mant.takeWhile (fun c => !(c == '.'))
  let dotFrac := mant.dropWhile (fun c => !(c == '.'))
  let fp := dotFrac.tail
  if !(ip.all Char.isDigit) || !(fp.all Char.isDigit) then none
  else if ip.isEmpty && fp.isEmpty then none
  else
    let mval : ℚ :=
      sgs.1 * ((digitsToNat ip : ℚ) + (digitsToNat fp : ℚ) / (10 : ℚ) ^ fp.length)
    match expTail with
    | [] => some mval
    | _ :: et =>
      let esd : Int × List Char :=
        match et with
        | '-' :: t => (-1, t)
        | '+' :: t => (1, t)
        | t => (1, t)
      if esd.2.isEmpty || !(esd.2.all Char.isDigit) then none
      else some (mval * (10 : ℚ) ^ (esd.1 * (digitsToNat esd.2 : Int)))

/-- Header-related state of a legacy `VcfReader` instance (the legacy
`_parse_header` never consults or sets the `_header_parsed` flag). -/
structure State where
  headerLines : List (List Char)
  columnHeader : List (List Char)
deriving DecidableEq

/-- State of a freshly constructed legacy `VcfReader`. -/
def initState : State :=
  { headerLines := [], columnHeader := [] }

/-- Loop of the legacy `VcfReader._parse_header`: collect `##` lines and
stop at `#CHROM`; no guard, no flag update, and no error when `#CHROM` is
absent. -/
def parseHeaderLoop (st : State) : List (List Char) → State
  | [] => st
  | line :: rest =>
    if pyStartsWith line "##".data then
      parseHeaderLoop { st with headerLines := st.headerLines ++ [pyStrip line] } rest
    else if pyStartsWith line "#CHROM".data then
      { st with columnHeader := pySplit '\t' (pyLStripHash (pyStrip line)) }
    else
      parseHeaderLoop st rest

/-- Model of the legacy `VcfReader._parse_header`. -/
def parseHeader (st : State) (lines : List (List Char)) : State :=
  parseHeaderLoop st lines

/-- Model of the legacy `VcfReader._parse_info`: like the biodatareader one
but with no skip of empty tokens (an empty token becomes the entry
`"" -> "True"`). -/
def parseInfo (infoStr : List Char) : List (List Char × List Char) :=
  if infoStr.isEmpty || infoStr == ".".data then []
  else
    (pySplit ';' infoStr).foldl
      (fun d kv =>
        if kv.contains '=' then
          pyDictInsert d (kv.takeWhile (fun c => !(c == '=')))
            ((kv.dropWhile (fun c => !(c == '='))).tail)
        else pyDictInsert d kv "True".data)
      []

/-- Model of one iteration of the loop in the legacy `VcfReader.read`:
unlike the biodatareader variant it has no try/except, so a bad POS or QUAL
raises `ValueError` and a missing FILTER column raises `IndexError`. -/
def readLine (line : List Char) : Except PyError (Option VariantRecord) :=
  if pyStartsWith line "#".data then .ok none
  else
    let parts := pySplit '\t' (pyStrip line)
    if parts.length < 5 then .ok none
    else
      let chrom := parts.getD 0 []
      match pyInt (parts.getD 1 []) with
      | none => .error .valueError
      | some pos =>
        let ref := parts.getD 3 []
        let alt := parts.getD 4 []
        match parts.get? 5 with
        | none => .error .indexError
        | some q5 =>
          let qualRes : Except PyError ℚ :=
            if q5 == ".".data then .ok 0
            else
              match pyFloat q5 with
              | none => .error .valueError
              | some q => .ok q
          match qualRes with
          | .error e => .error e
          | .ok qual =>
            match parts.get? 6 with
            | none => .error .indexError
            | some filter_ =>
              let infoStr := if parts.length > 7 then parts.getD 7 [] else []
              .ok (some { id := chrom ++ ':' :: intToChars pos, chrom := chrom,
                          pos := pos, ref := ref, alt := alt,
                          info := parseInfo infoStr, filter := filter_,
                          qual := some qual })

/-- Model of the legacy `VcfReader.read` from the file start. -/
def read : List (List Char) → Except PyError (List VariantRecord)
  | [] => .ok []
  | line :: rest =>
    match readLine line with
    | .error e => .error e
    | .ok none => read rest
    | .ok (some rec) =>
      match read rest with
      | .error e => .error e
      | .ok recs => .ok (rec :: recs)

/-- Model of the legacy `VcfReader.count_variants`: it counts the records
yielded by `read`, not the raw data lines. -/
def countVariants (lines : List (List Char)) : Except PyError Nat :=
  (read lines).map List.length

/-- Model of the legacy `VcfReader.filter_by_region`: no validation of the
`start`/`end` arguments at all; it just filters the records of `read`. -/
def filterByRegion (lines : List (List Char)) (chrom : List Char)
    (start end_ : Int) : Except PyError (List VariantRecord) :=
  (read lines).map
    (·.filter (fun rec => rec.chrom == chrom && decide (start ≤ rec.pos) &&
      decide (rec.pos ≤ end_)))

end LegacyVcfReader

namespace FastqReader

/-- Errors raised by `FastqReader.read` (`ValueError`s with their messages,
plus the `IndexError` from taking token `[0]` of an all-whitespace header
remainder). -/
inductive Error
  | badHeaderMarker (line : List Char)
  | badPlusMarker (line : List Char)
  | lengthMismatch (id : List Char)
  | emptySequence (id : List Char)
  | indexError
deriving DecidableEq

/-- First whitespace-delimited token of `s`, as `s.split(maxsplit=1)[0]`
computes it; `none` models the `IndexError` when `s` has no token. -/
def firstToken (s : List Char) : Option (List Char) :=
  let t := s.dropWhile pySpace
  if t.isEmpty then none else some (t.takeWhile (fun c => !pySpace c))

/-- Model of `FastqReader._parse_quality`: one `ord(ch) - 33` per character
of the quality string. -/
def parseQuality (qualityStr : List Char) : List Int :=
  qualityStr.map (fun c => (c.toNat : Int) - 33)

/-- Model of `FastqReader.read`: fixed 4-line record cycle over the file's
raw lines; a missing header ends the iteration, a partial trailing record
(fewer than 4 lines, or one of them empty) is silently dropped, and
marker/length violations raise. -/
def read : List (List Char) → Except Error (List SequenceRecord)
  | [] => .ok []
  | [_] => .ok []
  | [_, _] => .ok []
  | [_, _, _] => .ok []
  | headerLn :: seqLn :: plusLn :: qualLn :: rest =>
    let sequence := pyRStripNl seqLn
    let quality := pyRStripNl qualLn
    if headerLn.isEmpty || sequence.isEmpty || plusLn.isEmpty || quality.isEmpty then
      .ok []
    else if !pyStartsWith headerLn "@".data then
      .error (.badHeaderMarker (pyStrip headerLn))
    else if !pyStartsWith plusLn "+".data then
      .error (.badPlusMarker (pyStrip plusLn))
    else
      let idRes : Except Error (List Char) :=
        if headerLn.length > 1 then
          match firstToken (headerLn.drop 1) with
          | none => .error .indexError
          | some t => .ok t
        else .ok "unknown".data
      match idRes with
      | .error e => .error e
      | .ok seqId =>
        let seqClean := pyUpper sequence
        if seqClean.length ≠ quality.length then .error (.lengthMismatch seqId)
        else if seqClean.isEmpty then .error (.emptySequence seqId)
        else
          match read rest with
          | .error e => .error e
          | .ok recs =>
            .ok ({ id := seqId, sequence := seqClean,
                   quality := some (parseQuality quality) } :: recs)

end FastqReader

namespace FastaReader

/-- Error raised by `FastaReader._get_sequence` on an alphabet violation
(a `ValueError` naming the offending record's id). -/
inductive Error
  | invalidSequence (id : List Char)
deriving DecidableEq

/-- Observable state of a `FastaReader` instance: whether its file is open,
the line the cursor is at, and the two running statistics counters. -/
structure State where
  fileOpen : Bool
  cursor : Nat
  seqCount : Nat
  totalLength : Nat
deriving DecidableEq

/-- State of a freshly constructed `FastaReader` (file not yet open,
counters at zero). -/
def initState : State :=
  { fileOpen := false, cursor := 0, seqCount := 0, totalLength := 0 }

/-- Model of `FastaReader._validate_sequence`: every character must belong
to the extended IUPAC nucleotide alphabet. -/
def validateSequence (seq : List Char) : Bool :=
  seq.all (fun c => "ACGTURYKMSWBDHVN-".data.contains c)

/-- Model of `FastaReader._get_sequence`: strip and upper-case the
accumulated sequence, validate it, and build the record. -/
def getSequence (seqId seq : List Char) : Except Error SequenceRecord :=
  let seq := pyUpper (pyStrip seq)
  if !validateSequence seq then .error (.invalidSequence seqId)
  else .ok { id := seqId, sequence := seq, quality := none }

/-- Loop of `FastaReader.read` from the cursor onward, assuming the caller
consumes the iterator fully: skip blank lines, flush the accumulated record
at each `>` marker, and flush the final record only when its id is a
non-empty string (the source's final `if seq_id:` is false both for `None`
and for the empty id).  Returns the yielded records and the final values of
the two statistics counters. -/
def readLoop (seqId : Option (List Char)) (acc : List (List Char))
    (count total : Nat) :
    List (List Char) → Except Error (List SequenceRecord × Nat × Nat)
  | [] =>
    match seqId with
    | some sid =>
      if sid.isEmpty then .ok ([], count, total)
      else
        match getSequence sid acc.flatten with
        | .error e => .error e
        | .ok rec => .ok ([rec], count + 1, total + rec.sequence.length)
    | none => .ok ([], count, total)
  | line :: rest =>
    let l := pyStrip line
    if l.isEmpty then readLoop seqId acc count total rest
    else if pyStartsWith l ">".data then
      match seqId with
      | some sid =>
        match getSequence sid acc.flatten with
        | .error e => .error e
        | .ok rec =>
          match readLoop (some (pyStrip (l.drop 1))) [] (count + 1)
              (total + rec.sequence.length) rest with
          | .error e => .error e
          | .ok (recs, c, t) => .ok (rec :: recs, c, t)
      | none => readLoop (some (pyStrip (l.drop 1))) [] count total rest
    else readLoop seqId (acc ++ [l]) count total rest

/-- Model of a fully consumed call to `FastaReader.read`: reopen the file at
line 0 if it is not open (`read` itself never repositions an open file), run
the loop from the cursor, and leave the cursor at end of file with the
updated counters. -/
def read (st : State) (lines : List (List Char)) :
    Except Error (List SequenceRecord × State) :=
  let st' := if st.fileOpen then st else { st with fileOpen := true, cursor := 0 }
  match readLoop none [] st'.seqCount st'.totalLength (lines.drop st'.cursor) with
  | .error e => .error e
  | .ok (recs, c, t) =>
    .ok (recs, { st' with cursor := lines.length, seqCount := c, totalLength := t })

/-- Model of `FastaReader.close`: it only releases the file; the statistics
counters are untouched. -/
def close (st : State) : State :=
  if st.fileOpen then { st with fileOpen := false } else st

/-- Model of `FastaReader.get_seq_score`. -/
def getSeqScore (st : State) : Nat :=
  st.seqCount

/-- Model of `FastaReader.get_mean_seq_length` (exact rational division in
place of Python float division). -/
def getMeanSeqLength (st : State) : ℚ :=
  if st.seqCount = 0 then 0 else (st.totalLength : ℚ) / (st.seqCount : ℚ)

end FastaReader

theorem foldl_add_fst (l : List (Nat × Char)) (a : Nat) :
    l.foldl (fun acc p => acc + p.1) a = a + (l.map Prod.fst).sum := by
  induction l generalizing a with
  | nil => simp
  | cons p l ih => simp [List.foldl_cons, ih]; omega

theorem SamReader.calcAlignedLength_eq_sum (cigar : List Char) :
    SamReader.calcAlignedLength cigar =
      (((SamReader.cigarFindAll cigar).filter
          (fun p => ['M', 'D', 'N', '=', 'X'].contains p.2)).map Prod.fst).sum := by
  unfold SamReader.calcAlignedLength
  split
  · rename_i h
    rcases Bool.or_eq_true _ _ |>.mp h with h' | h'
    · have : cigar = [] := by simpa using h'
      subst this
      decide
    · have : cigar = "*".data := by simpa using h'
      subst this
      decide
  · rw [foldl_add_fst]
    simp only [Nat.zero_add]
    have hfe : (SamReader.cigarFindAll cigar).filter
          (fun p => p.2 == 'M' || p.2 == 'D' || p.2 == 'N' || p.2 == '=' || p.2 == 'X') =
        (SamReader.cigarFindAll cigar).filter
          (fun p => ['M', 'D', 'N', '=', 'X'].contains p.2) := by
      apply List.filter_congr
      intro p _
      apply Bool.eq_iff_iff.mpr
      simp
      tauto
    rw [hfe]

theorem SamReader.readLine_endPos (line : List Char) (rec : AlignmentRecord)
    (h : SamReader.readLine line = some rec) :
    rec.endPos = (if 0 < SamReader.calcAlignedLength rec.cigar then
        rec.start + (SamReader.calcAlignedLength rec.cigar : Int) - 1
      else rec.start) := by
  unfold SamReader.readLine at h
  dsimp only at h
  split at h
  · exact absurd h (by simp)
  · split at h
    · exact absurd h (by simp)
    · split at h
      · injection h with h'
        subst h'
        rfl
      · exact absurd h (by simp)

theorem SamReader.read_endPos (lines : List (List Char)) (rec : AlignmentRecord)
    (hrec : rec ∈ SamReader.read lines) :
    rec.endPos = (if 0 < SamReader.calcAlignedLength rec.cigar then
        rec.start + (SamReader.calcAlignedLength rec.cigar : Int) - 1
      else rec.start) := by
  obtain ⟨line, _, hline⟩ := List.mem_filterMap.mp hrec
  exact SamReader.readLine_endPos line rec hline

/-- Demonstration SAM file: one header line and one alignment on `chrom1`
with POS 100 and CIGAR `80M` (aligned reference span `[100, 179]`). -/
def samDemoLines : List (List Char) :=
  ["@SQ\tSN:chrom1\tLN:1000\n".data,
   "r1\t0\tchrom1\t100\t60\t80M\t*\t0\t0\tA\tI\n".data]

/-- The single alignment record parsed from `samDemoLines`. -/
def samDemoRec : AlignmentRecord :=
  { id := "r1".data, chrom := "chrom1".data, start := 100, cigar := "80M".data,
    mapq := 60, endPos := 179, flag := 0 }

/-- Claim C1: every record of `SamReader.read` has an aligned reference
length equal to the sum of the operands of its CIGAR operations in
`{M, D, N, =, X}` (operations I, S, H, P contribute nothing), and its end
field equals `POS + aligned_length - 1` when the aligned length is positive
and `POS` otherwise; CIGAR `"50M10D20M"` gives aligned length 80, `"30I"`
gives 0, and a record with POS 100 and aligned length 80 has end 179. -/
theorem c1_sam_aligned_length_and_end (lines : List (List Char))
    (rec : AlignmentRecord) (hrec : rec ∈ SamReader.read lines) :
    (∀ cigar : List Char,
        SamReader.calcAlignedLength cigar =
          (((SamReader.cigarFindAll cigar).filter
              (fun p => ['M', 'D', 'N', '=', 'X'].contains p.2)).map Prod.fst).sum) ∧
    rec.endPos = (if 0 < SamReader.calcAlignedLength rec.cigar then
        rec.start + (SamReader.calcAlignedLength rec.cigar : Int) - 1
      else rec.start) ∧
    SamReader.calcAlignedLength "50M10D20M".data = 80 ∧
    SamReader.calcAlignedLength "30I".data = 0 ∧
    (samDemoRec.start = 100 ∧ SamReader.calcAlignedLength samDemoRec.cigar = 80 ∧
      samDemoRec.endPos = 179) := by
  exact ⟨SamReader.calcAlignedLength_eq_sum,
    SamReader.read_endPos lines rec hrec, by decide, by decide,
    by decide, by decide, by decide⟩

/-- Witness for C1: the record parsed from the demonstration SAM line
satisfies the conclusion. -/
theorem c1_sam_aligned_length_and_end_witness :
    samDemoRec.endPos = (if 0 < SamReader.calcAlignedLength samDemoRec.cigar then
        samDemoRec.start + (SamReader.calcAlignedLength samDemoRec.cigar : Int) - 1
      else samDemoRec.start) ∧
    SamReader.calcAlignedLength "50M10D20M".data = 80 :=
  ⟨(c1_sam_aligned_length_and_end samDemoLines samDemoRec (by decide)).2.1,
   (c1_sam_aligned_length_and_end samDemoLines samDemoRec (by decide)).2.2.1⟩

/-- Claim C6: with `start <= end`, `SamReader.filter_by_region` yields
exactly the records of `read` whose chromosome equals the query chromosome
and whose interval overlaps the query interval (`rec.start <= end` and
`rec.end >= start`); the record spanning `[100, 179]` on `chrom1` is
returned for the query `chrom1:150-200` and not for `chrom1:200-300`. -/
theorem c6_sam_filter_by_region_overlap (lines : List (List Char))
    (chrom : List Char) (start end_ : Int) (h : start ≤ end_) :
    SamReader.filterByRegion lines chrom start end_ =
      .ok ((SamReader.read lines).filter
        (fun rec => rec.chrom == chrom && decide (rec.start ≤ end_) &&
          decide (rec.endPos ≥ start))) ∧
    (∀ rec : AlignmentRecord, ∀ recs : List AlignmentRecord,
        SamReader.filterByRegion lines chrom start end_ = .ok recs →
        (rec ∈ recs ↔ rec ∈ SamReader.read lines ∧ rec.chrom = chrom ∧
          rec.start ≤ end_ ∧ rec.endPos ≥ start)) ∧
    SamReader.filterByRegion samDemoLines "chrom1".data 150 200 = .ok [samDemoRec] ∧
    SamReader.filterByRegion samDemoLines "chrom1".data 200 300 = .ok [] := by
  have hnot : ¬ start > end_ := not_lt.mpr h
  refine ⟨by rw [SamReader.filterByRegion, if_neg hnot], ?_, by decide, by decide⟩
  intro rec recs hres
  rw [SamReader.filterByRegion, if_neg hnot] at hres
  injection hres with h'
  subst h'
  rw [List.mem_filter]
  simp [and_assoc]

/-- Witness for C6: the query `chrom1:150-200` with `150 <= 200` returns
the demonstration record, and `chrom1:200-300` does not. -/
theorem c6_sam_filter_by_region_overlap_witness :
    SamReader.filterByRegion samDemoLines "chrom1".data 150 200 = .ok [samDemoRec] ∧
    SamReader.filterByRegion samDemoLines "chrom1".data 200 300 = .ok [] :=
  ⟨(c6_sam_filter_by_region_overlap samDemoLines "chrom1".data 150 200
      (by decide)).2.2.1,
   (c6_sam_filter_by_region_overlap samDemoLines "chrom1".data 150 200
      (by decide)).2.2.2⟩

/-- Minimal demonstration VCF file: the column header and one 8-column data
line (also the end-to-end example of the specification). -/
def vcfDemoLines : List (List Char) :=
  ["#CHROM\tPOS\tID\tREF\tALT\n".data,
   "chr1\t100\t.\tA\tT\t.\t.\tDP=10\n".data]

/-- Observation of whether a biodatareader `VcfReader` query outcome is the
invalid-range `ValueError`. -/
def vcfInvalidRangeRaised
    (r : Except (ReaderError × VcfReader.State) (List VariantRecord × VcfReader.State)) :
    Bool :=
  match r with
  | .error (.invalidRange, _) => true
  | _ => false

theorem VcfReader.parseHeaderLoop_error_cause (lines : List (List Char))
    (st st' : VcfReader.State) (e : ReaderError)
    (h : VcfReader.parseHeaderLoop st lines = .error (e, st')) :
    e = .missingChromHeader := by
  induction lines generalizing st with
  | nil =>
    rw [VcfReader.parseHeaderLoop] at h
    injection h with h'
    have h2 := congrArg Prod.fst h'
    simpa using h2.symm
  | cons line rest ih =>
    rw [VcfReader.parseHeaderLoop] at h
    split at h
    · exact ih _ h
    · split at h
      · exact absurd h (by simp)
      · exact ih _ h

theorem VcfReader.parseHeader_error_cause (lines : List (List Char))
    (st st' : VcfReader.State) (e : ReaderError)
    (h : VcfReader.parseHeader st lines = .error (e, st')) :
    e = .missingChromHeader := by
  rw [VcfReader.parseHeader] at h
  split at h
  · exact absurd h (by simp)
  · split at h
    · exact absurd h (by simp)
    · rename_i heq
      injection h with h'
      subst h'
      exact VcfReader.parseHeaderLoop_error_cause lines st _ e heq

/-- Claim C2 as amended: `SamReader.filter_by_region` and the biodatareader
`VcfReader.filter_by_region` raise the invalid-range `ValueError` exactly
when `start > end` (before yielding anything), and never raise it when
`start <= end`; the legacy `VcfReader` in src/vcf_reader.py performs no such
validation (see the counterexample). -/
theorem c2_filter_by_region_invalid_range (samLines vcfLines : List (List Char))
    (vst : VcfReader.State) (chrom : List Char) (s e : Int) :
    (s > e →
      SamReader.filterByRegion samLines chrom s e = .error .invalidRange ∧
      VcfReader.filterByRegion vst vcfLines chrom s e = .error (.invalidRange, vst)) ∧
    (s ≤ e →
      SamReader.filterByRegion samLines chrom s e =
        .ok ((SamReader.read samLines).filter
          (fun rec => rec.chrom == chrom && decide (rec.start ≤ e) &&
            decide (rec.endPos ≥ s))) ∧
      vcfInvalidRangeRaised (VcfReader.filterByRegion vst vcfLines chrom s e) = false) := by
  constructor
  · intro hgt
    exact ⟨by rw [SamReader.filterByRegion, if_pos hgt],
           by rw [VcfReader.filterByRegion, if_pos hgt]⟩
  · intro hle
    have hnot : ¬ s > e := not_lt.mpr hle
    refine ⟨by rw [SamReader.filterByRegion, if_neg hnot], ?_⟩
    rw [VcfReader.filterByRegion, if_neg hnot]
    cases hph : VcfReader.parseHeader vst vcfLines with
    | ok st' => rfl
    | error p =>
      have := VcfReader.parseHeader_error_cause vcfLines vst p.2 p.1 (by rw [hph])
      cases p with
      | mk e' st'' =>
        simp only at this
        subst this
        rfl

/-- Witness for C2 as amended: on the demonstration files, `start 5 > end 1`
raises the invalid-range error in both readers, and `start 1 <= end 5` does
not. -/
theorem c2_filter_by_region_invalid_range_witness :
    (SamReader.filterByRegion samDemoLines "chr1".data 5 1 = .error .invalidRange ∧
     VcfReader.filterByRegion VcfReader.initState vcfDemoLines "chr1".data 5 1 =
       .error (.invalidRange, VcfReader.initState)) ∧
    (SamReader.filterByRegion samDemoLines "chr1".data 1 5 =
       .ok ((SamReader.read samDemoLines).filter
         (fun rec => rec.chrom == "chr1".data && decide (rec.start ≤ (5 : Int)) &&
           decide (rec.endPos ≥ (1 : Int)))) ∧
     vcfInvalidRangeRaised
       (VcfReader.filterByRegion VcfReader.initState vcfDemoLines "chr1".data 1 5) =
       false) :=
  ⟨(c2_filter_by_region_invalid_range samDemoLines vcfDemoLines VcfReader.initState
      "chr1".data 5 1).1 (by decide),
   (c2_filter_by_region_invalid_range samDemoLines vcfDemoLines VcfReader.initState
      "chr1".data 1 5).2 (by decide)⟩

/-- C2 counterexample: the legacy `VcfReader.filter_by_region` in
src/vcf_reader.py does not validate its arguments: called with start 5 >
end 1 on a well-formed VCF it completes normally and yields nothing,
instead of failing with the argument-validation `ValueError` the claim
requires of every `VcfReader`. -/
theorem c2_counterexample_legacy_filter_no_validation :
    (1 : Int) < 5 ∧
    LegacyVcfReader.filterByRegion vcfDemoLines "chr1".data 5 1 = .ok [] := by
  constructor
  · decide
  · decide

/-- Demonstration VCF file whose data line `foo` is counted by the raw-line
count but skipped by `read()` (fewer than 5 fields). -/
def c3StrictDemoLines : List (List Char) :=
  ["#CHROM\tPOS\tID\tREF\tALT\n".data, "foo\n".data]

/-- State of a biodatareader `VcfReader` after parsing `vcfDemoLines`. -/
def vcfDemoParsedState : VcfReader.State :=
  { headerParsed := true, headerLines := [],
    columnHeader := ["CHROM".data, "POS".data, "ID".data, "REF".data, "ALT".data] }

/-- Count extracted from a biodatareader `count_variants` outcome. -/
def vcfCountResult
    (r : Except (ReaderError × VcfReader.State) (Nat × VcfReader.State)) : Option Nat :=
  match r with
  | .ok (n, _) => some n
  | .error _ => none

theorem length_filterMap_le_filter {α β : Type} (l : List α) (f : α → Option β)
    (p : α → Bool) (hf : ∀ a b, f a = some b → p a = true) :
    (l.filterMap f).length ≤ (l.filter p).length := by
  induction l with
  | nil => simp
  | cons a l ih =>
    rw [List.filterMap_cons, List.filter_cons]
    cases hfa : f a with
    | none =>
      dsimp only
      by_cases hpa : p a = true
      · rw [if_pos hpa]
        simp only [List.length_cons]
        exact Nat.le_succ_of_le ih
      · rw [if_neg hpa]
        exact ih
    | some b =>
      dsimp only
      rw [if_pos (hf a b hfa)]
      simp only [List.length_cons]
      exact Nat.succ_le_succ ih

theorem VcfReader.readLine_not_hash (line : List Char) (rec : VariantRecord)
    (h : VcfReader.readLine line = some rec) :
    (!pyStartsWith line "#".data) = true := by
  by_cases hp : pyStartsWith line "#".data
  · rw [VcfReader.readLine, if_pos hp] at h
    exact absurd h (by simp)
  · simpa using hp

/-- Claim C3 as amended: the biodatareader `VcfReader.count_variants`
returns the number of non-empty lines not starting with `#`, independently
of the 5-field/parse-success filter of `read()`, so it is at least the
number of records `read()` yields, and strictly greater on the
demonstration file with an unparsable data line; the legacy `VcfReader` in
src/vcf_reader.py instead counts the records of `read()` (see the
counterexample). -/
theorem c3_count_variants_counts_raw_lines (st st' : VcfReader.State)
    (lines : List (List Char)) (n : Nat)
    (hne : ∀ l ∈ lines, l ≠ ([] : List Char))
    (h : VcfReader.countVariants st lines = .ok (n, st')) :
    n = (lines.filter (fun l => !l.isEmpty && !pyStartsWith l "#".data)).length ∧
    (VcfReader.readRecords lines).length ≤ n ∧
    vcfCountResult (VcfReader.countVariants VcfReader.initState c3StrictDemoLines) =
      some 1 ∧
    VcfReader.readRecords c3StrictDemoLines = [] := by
  rw [VcfReader.countVariants] at h
  cases hph : VcfReader.parseHeader st lines with
  | error p =>
    rw [hph] at h
    exact absurd h (by simp)
  | ok sth =>
    rw [hph] at h
    injection h with h'
    have hn : (lines.filter (fun l => !pyStartsWith l "#".data)).length = n := by
      simpa using congrArg Prod.fst h'
    have hfil : lines.filter (fun l => !l.isEmpty && !pyStartsWith l "#".data) =
        lines.filter (fun l => !pyStartsWith l "#".data) := by
      apply List.filter_congr
      intro l hl
      have hne' : l.isEmpty = false := by
        simpa [List.isEmpty_iff] using hne l hl
      rw [hne']
      simp
    refine ⟨by rw [hfil, hn], ?_, by decide, by decide⟩
    rw [← hn]
    exact length_filterMap_le_filter lines VcfReader.readLine _
      (fun a b hab => VcfReader.readLine_not_hash a b hab)

/-- Witness for C3 as amended: on the minimal demonstration VCF the count is
the single data line. -/
theorem c3_count_variants_counts_raw_lines_witness :
    (1 : Nat) =
      (vcfDemoLines.filter (fun l => !l.isEmpty && !pyStartsWith l "#".data)).length ∧
    (VcfReader.readRecords vcfDemoLines).length ≤ 1 ∧
    vcfCountResult (VcfReader.countVariants VcfReader.initState c3StrictDemoLines) =
      some 1 ∧
    VcfReader.readRecords c3StrictDemoLines = [] :=
  c3_count_variants_counts_raw_lines VcfReader.initState vcfDemoParsedState
    vcfDemoLines 1 (by decide) (by decide)

/-- C3 counterexample: on a file whose only data line is `foo`, the legacy
`VcfReader.count_variants` in src/vcf_reader.py returns 0 (it counts the
records of `read()`), while the number of non-empty lines not starting with
`#` is 1. -/
theorem c3_counterexample_legacy_count_not_raw_lines :
    LegacyVcfReader.countVariants c3StrictDemoLines = .ok 0 ∧
    (c3StrictDemoLines.filter (fun l => !l.isEmpty && !pyStartsWith l "#".data)).length
      = 1 := by
  constructor
  · decide
  · decide

theorem FastqReader.read_quality_length_aux :
    ∀ (n : Nat) (lines : List (List Char)) (recs : List SequenceRecord),
      lines.length ≤ n → FastqReader.read lines = .ok recs →
      ∀ rec ∈ recs, ∃ q, rec.quality = some q ∧ q.length = rec.sequence.length := by
  intro n
  induction n with
  | zero =>
    intro lines recs hlen h rec hrec
    have hnil : lines = [] := List.length_eq_zero.mp (Nat.le_zero.mp hlen)
    subst hnil
    simp only [FastqReader.read, Except.ok.injEq] at h
    subst h
    simp at hrec
  | succ n ih =>
    intro lines recs hlen h rec hrec
    match lines, hlen, h with
    | [], hlen, h =>
      simp only [FastqReader.read, Except.ok.injEq] at h
      subst h
      simp at hrec
    | [a], hlen, h =>
      simp only [FastqReader.read, Except.ok.injEq] at h
      subst h
      simp at hrec
    | [a, b], hlen, h =>
      simp only [FastqReader.read, Except.ok.injEq] at h
      subst h
      simp at hrec
    | [a, b, c], hlen, h =>
      simp only [FastqReader.read, Except.ok.injEq] at h
      subst h
      simp at hrec
    | headerLn :: seqLn :: plusLn :: qualLn :: rest, hlen, h =>
      rw [FastqReader.read] at h
      dsimp only at h
      split at h
      · injection h with h'
        subst h'
        simp at hrec
      · split at h
        · exact absurd h (by simp)
        · split at h
          · exact absurd h (by simp)
          · split at h
            · exact absurd h (by simp)
            · rename_i seqId hid
              split at h
              · exact absurd h (by simp)
              · rename_i hmis
                split at h
                · exact absurd h (by simp)
                · split at h
                  · exact absurd h (by simp)
                  · rename_i recs2 hok
                    injection h with h'
                    subst h'
                    rcases List.mem_cons.mp hrec with hr | hr
                    · subst hr
                      refine ⟨FastqReader.parseQuality (pyRStripNl qualLn), rfl, ?_⟩
                      have hlen2 : (pyUpper (pyRStripNl seqLn)).length =
                          (pyRStripNl qualLn).length := not_ne_iff.mp hmis
                      simp [FastqReader.parseQuality, hlen2]
                    · refine ih rest recs2 ?_ hok rec hr
                      simp only [List.length_cons] at hlen
                      omega

/-- Demonstration FASTQ file: one complete 4-line record. -/
def fastqDemoLines : List (List Char) :=
  ["@r1 extra\n".data, "acgt\n".data, "+\n".data, "!!I~\n".data]

/-- The record parsed from `fastqDemoLines`. -/
def fastqDemoRec : SequenceRecord :=
  { id := "r1".data, sequence := "ACGT".data, quality := some [0, 0, 40, 93] }

/-- Claim C4: every record yielded by `FastqReader.read` has exactly one
quality entry per sequence character; position i of the decoded quality list
is `ascii_code(quality_string[i]) - 33`; decoding `"!"` yields `[0]` and
`"I"` yields `[40]`. -/
theorem c4_fastq_quality_decoding (lines : List (List Char))
    (recs : List SequenceRecord) (h : FastqReader.read lines = .ok recs) :
    (∀ rec ∈ recs, ∃ q, rec.quality = some q ∧ q.length = rec.sequence.length) ∧
    (∀ (qs : List Char) (i : Nat),
        (FastqReader.parseQuality qs)[i]? =
          (qs[i]?).map (fun c => (c.toNat : Int) - 33)) ∧
    FastqReader.parseQuality "!".data = [0] ∧
    FastqReader.parseQuality "I".data = [40] := by
  refine ⟨FastqReader.read_quality_length_aux lines.length lines recs le_rfl h,
    ?_, by decide, by decide⟩
  intro qs i
  simp [FastqReader.parseQuality]

/-- Witness for C4: the demonstration FASTQ record has 4 quality scores for
its 4 bases, and the two decoder examples hold. -/
theorem c4_fastq_quality_decoding_witness :
    FastqReader.read fastqDemoLines = .ok [fastqDemoRec] ∧
    FastqReader.parseQuality "!".data = [0] ∧
    FastqReader.parseQuality "I".data = [40] :=
  ⟨by decide,
   (c4_fastq_quality_decoding fastqDemoLines [fastqDemoRec] (by decide)).2.2.1,
   (c4_fastq_quality_decoding fastqDemoLines [fastqDemoRec] (by decide)).2.2.2⟩

theorem VcfReader.parseHeaderLoop_no_chrom (lines : List (List Char)) :
    ∀ st : VcfReader.State,
      (∀ l ∈ lines, pyStartsWith l "#CHROM".data = false) →
      ∃ st', VcfReader.parseHeaderLoop st lines = .error (.missingChromHeader, st') := by
  induction lines with
  | nil => exact fun st _ => ⟨st, rfl⟩
  | cons line rest ih =>
    intro st h
    rw [VcfReader.parseHeaderLoop]
    split
    · exact ih _ (fun l hl => h l (List.mem_cons_of_mem _ hl))
    · split
      · rename_i h2
        rw [h line (List.mem_cons_self _ _)] at h2
        exact absurd h2 (by simp)
      · exact ih _ (fun l hl => h l (List.mem_cons_of_mem _ hl))

/-- Demonstration VCF header block with no `#CHROM` line anywhere. -/
def c5DemoLines : List (List Char) :=
  ["##fileformat=VCFv4.2\n".data, "chr1\t100\t.\tA\tT\n".data]

/-- Claim C5: when no line of the input starts with `#CHROM`, header parsing
fails; entered through the scoped `__enter__`, the underlying file is closed
before the failure is signaled, and the signaled error wraps both the file
path and the underlying cause. -/
theorem c5_vcf_missing_chrom_wrapped_error (path : List Char)
    (lines : List (List Char))
    (h : ∀ l ∈ lines, pyStartsWith l "#CHROM".data = false) :
    VcfReader.enter path lines =
      .error { path := path, cause := .missingChromHeader,
               fileOpenAtRaise := false } := by
  obtain ⟨st', hst'⟩ := VcfReader.parseHeaderLoop_no_chrom lines VcfReader.initState h
  rw [VcfReader.enter, VcfReader.parseHeader, if_neg (by decide), hst']

/-- Witness for C5: a concrete header block without `#CHROM` produces the
wrapped error with the file already closed. -/
theorem c5_vcf_missing_chrom_wrapped_error_witness :
    VcfReader.enter "test.vcf".data c5DemoLines =
      .error { path := "test.vcf".data, cause := .missingChromHeader,
               fileOpenAtRaise := false } :=
  c5_vcf_missing_chrom_wrapped_error "test.vcf".data c5DemoLines (by decide)

theorem FastaReader.readLoop_counts (lines : List (List Char)) :
    ∀ (seqId : Option (List Char)) (acc : List (List Char)) (count total : Nat)
      (recs : List SequenceRecord) (c t : Nat),
      FastaReader.readLoop seqId acc count total lines = .ok (recs, c, t) →
      c = count + recs.length ∧
      t = total + (recs.map (fun r => r.sequence.length)).sum := by
  induction lines with
  | nil =>
    intro seqId acc count total recs c t h
    cases seqId with
    | none =>
      rw [FastaReader.readLoop.eq_2] at h
      simp only [Except.ok.injEq, Prod.mk.injEq] at h
      obtain ⟨h1, h2, h3⟩ := h
      subst h1; subst h2; subst h3
      simp
    | some sid =>
      rw [FastaReader.readLoop.eq_1] at h
      split at h
      · simp only [Except.ok.injEq, Prod.mk.injEq] at h
        obtain ⟨h1, h2, h3⟩ := h
        subst h1; subst h2; subst h3
        simp
      · split at h
        · exact absurd h (by simp)
        · simp only [Except.ok.injEq, Prod.mk.injEq] at h
          obtain ⟨h1, h2, h3⟩ := h
          subst h1; subst h2; subst h3
          simp
  | cons line rest ih =>
    intro seqId acc count total recs c t h
    cases seqId with
    | none =>
      rw [FastaReader.readLoop.eq_4] at h
      split at h
      · exact ih _ _ _ _ _ _ _ h
      · split at h
        · exact ih _ _ _ _ _ _ _ h
        · exact ih _ _ _ _ _ _ _ h
    | some sid =>
      rw [FastaReader.readLoop.eq_3] at h
      split at h
      · exact ih _ _ _ _ _ _ _ h
      · split at h
        · split at h
          · exact absurd h (by simp)
          · split at h
            · exact absurd h (by simp)
            · rename_i rec hrec p hloop
              simp only [Except.ok.injEq, Prod.mk.injEq] at h
              obtain ⟨h1, h2, h3⟩ := h
              subst h1; subst h2; subst h3
              obtain ⟨hc, ht⟩ := ih _ _ _ _ _ _ _ hloop
              refine ⟨by simp [hc]; omega, by simp [ht]; omega⟩
        · exact ih _ _ _ _ _ _ _ h

/-- Demonstration FASTA file with one record. -/
def fastaDemoLines : List (List Char) :=
  [">s1\n".data, "ACGT\n".data]

/-- The record parsed from `fastaDemoLines`. -/
def fastaS1Rec : SequenceRecord :=
  { id := "s1".data, sequence := "ACGT".data, quality := none }

/-- Reader state after one full consumption of `read()` on
`fastaDemoLines` from a fresh reader. -/
def fastaDemoSt1 : FastaReader.State :=
  { fileOpen := true, cursor := 2, seqCount := 1, totalLength := 4 }

/-- Claim C7: after fully consuming `read()` once on a fresh `FastaReader`,
`get_seq_score()` equals the number of records yielded and
`get_mean_seq_length()` equals the total sequence length divided by that
count (0.0 when the count is 0). -/
theorem c7_fasta_stats_after_full_read (lines : List (List Char))
    (recs : List SequenceRecord) (st : FastaReader.State)
    (h : FastaReader.read FastaReader.initState lines = .ok (recs, st)) :
    FastaReader.getSeqScore st = recs.length ∧
    FastaReader.getMeanSeqLength st =
      (if recs.length = 0 then (0 : ℚ)
       else (((recs.map (fun r => r.sequence.length)).sum : ℚ) / (recs.length : ℚ))) := by
  have hred : FastaReader.read FastaReader.initState lines =
      match FastaReader.readLoop none [] 0 0 lines with
      | .error e => .error e
      | .ok (recs, c, t) =>
        .ok (recs, { fileOpen := true, cursor := lines.length,
                     seqCount := c, totalLength := t }) := rfl
  rw [hred] at h
  cases hloop : FastaReader.readLoop none [] 0 0 lines with
  | error e =>
    rw [hloop] at h
    exact absurd h (by simp)
  | ok p =>
    obtain ⟨recs2, c, t⟩ := p
    rw [hloop] at h
    simp only [Except.ok.injEq, Prod.mk.injEq] at h
    obtain ⟨h1, h2⟩ := h
    subst h1
    obtain ⟨hc, ht⟩ := FastaReader.readLoop_counts lines none [] 0 0 _ _ _ hloop
    simp only [Nat.zero_add] at hc ht
    subst h2
    subst hc
    subst ht
    refine ⟨rfl, ?_⟩
    show (if recs2.length = 0 then (0 : ℚ)
        else (((recs2.map (fun r => r.sequence.length)).sum : Nat) : ℚ) /
          (recs2.length : ℚ)) = _
    by_cases hz : recs2.length = 0
    · rw [if_pos hz, if_pos hz]
    · rw [if_neg hz, if_neg hz]
      congr 1
      push_cast
      rw [List.map_map]
      rfl

/-- Witness for C7: the demonstration FASTA has one record of length 4, so
score is 1 and mean length is 4. -/
theorem c7_fasta_stats_after_full_read_witness :
    FastaReader.getSeqScore fastaDemoSt1 = [fastaS1Rec].length ∧
    FastaReader.getMeanSeqLength fastaDemoSt1 =
      (if [fastaS1Rec].length = 0 then (0 : ℚ)
       else ((([fastaS1Rec].map (fun r => r.sequence.length)).sum : ℚ) /
         (([fastaS1Rec] : List SequenceRecord).length : ℚ))) :=
  c7_fasta_stats_after_full_read fastaDemoLines [fastaS1Rec] fastaDemoSt1 (by decide)

theorem FastaReader.readLoop_shift (lines : List (List Char)) :
    ∀ (seqId : Option (List Char)) (acc : List (List Char)) (count total : Nat),
      FastaReader.readLoop seqId acc count total lines =
        (FastaReader.readLoop seqId acc 0 0 lines).map
          (fun r => (r.1, count + r.2.1, total + r.2.2)) := by
  induction lines with
  | nil =>
    intro seqId acc count total
    cases seqId with
    | none => rw [FastaReader.readLoop.eq_2, FastaReader.readLoop.eq_2]; simp [Except.map]
    | some sid =>
      rw [FastaReader.readLoop.eq_1, FastaReader.readLoop.eq_1]
      split
      · simp [Except.map]
      · cases hg : FastaReader.getSequence sid acc.flatten with
        | error e => simp [Except.map]
        | ok rec => simp [Except.map]
  | cons line rest ih =>
    intro seqId acc count total
    cases seqId with
    | none =>
      rw [FastaReader.readLoop.eq_4, FastaReader.readLoop.eq_4]
      split
      · exact ih none acc count total
      · split
        · exact ih _ [] count total
        · exact ih none (acc ++ [pyStrip line]) count total
    | some sid =>
      rw [FastaReader.readLoop.eq_3, FastaReader.readLoop.eq_3]
      split
      · exact ih (some sid) acc count total
      · split
        · cases hg : FastaReader.getSequence sid acc.flatten with
          | error e => simp [Except.map]
          | ok rec =>
            simp only
            rw [ih _ [] (count + 1) (total + rec.sequence.length),
              ih _ [] (0 + 1) (0 + rec.sequence.length)]
            cases hb : FastaReader.readLoop
                (some (pyStrip (List.drop 1 (pyStrip line)))) [] 0 0 rest with
            | error e => simp [Except.map]
            | ok p =>
              obtain ⟨r2, c2, t2⟩ := p
              simp [Except.map]
              omega
        · exact ih (some sid) (acc ++ [pyStrip line]) count total

/-- Full consumption of `read()` repeated k times on the same reader
instance, calling `close()` between passes so that each pass reopens the
file at the start. -/
def fastaConsumeKTimes (lines : List (List Char)) : Nat → FastaReader.State →
    Except FastaReader.Error FastaReader.State
  | 0, st => .ok st
  | k + 1, st =>
    match FastaReader.read st lines with
    | .error e => .error e
    | .ok (_, st') => fastaConsumeKTimes lines k (FastaReader.close st')

theorem FastaReader.read_closed (lines : List (List Char)) (st : FastaReader.State)
    (recs : List SequenceRecord) (c t : Nat)
    (hcl : st.fileOpen = false)
    (hloop : FastaReader.readLoop none [] 0 0 lines = .ok (recs, c, t)) :
    FastaReader.read st lines =
      .ok (recs, { fileOpen := true, cursor := lines.length,
                   seqCount := st.seqCount + c,
                   totalLength := st.totalLength + t }) := by
  obtain ⟨fo, cur, sc, tl⟩ := st
  simp only at hcl
  subst hcl
  show (match FastaReader.readLoop none [] sc tl lines with
    | .error e => .error e
    | .ok (recs, c, t) => .ok (recs, FastaReader.State.mk true lines.length c t)) =
    Except.ok (recs, FastaReader.State.mk true lines.length (sc + c) (tl + t))
  rw [FastaReader.readLoop_shift, hloop]
  simp [Except.map]

/-- Claim C10 as amended: the `FastaReader` statistics counters are only
ever incremented by consuming `read()` and are not reset by `read()`,
`close()` or scope exit; a full `read()` on an open reader at end of file
yields no records and leaves the state unchanged, so repeated consumption
multiplies the score only when the file is repositioned to the start
between passes (here by `close()`), in which case k full consumptions of a
file with n records leave `get_seq_score() = k * n`. -/
theorem c10_fasta_counters_only_incremented (lines : List (List Char))
    (recs : List SequenceRecord) (st1 : FastaReader.State)
    (h : FastaReader.read FastaReader.initState lines = .ok (recs, st1)) :
    (∀ (st st' : FastaReader.State) (recs' : List SequenceRecord),
        FastaReader.read st lines = .ok (recs', st') →
        st'.seqCount = st.seqCount + recs'.length ∧
        st'.totalLength = st.totalLength +
          (recs'.map (fun r => r.sequence.length)).sum) ∧
    (∀ st : FastaReader.State, (FastaReader.close st).seqCount = st.seqCount ∧
        (FastaReader.close st).totalLength = st.totalLength) ∧
    (∀ st : FastaReader.State, st.fileOpen = true → st.cursor = lines.length →
        FastaReader.read st lines = .ok ([], st)) ∧
    (∀ k : Nat, (fastaConsumeKTimes lines k FastaReader.initState).map
        FastaReader.getSeqScore = .ok (k * recs.length)) := by
  have hloop0 : FastaReader.readLoop none [] 0 0 lines =
      .ok (recs, recs.length, (recs.map (fun r => r.sequence.length)).sum) := by
    have hred : FastaReader.read FastaReader.initState lines =
        match FastaReader.readLoop none [] 0 0 lines with
        | .error e => .error e
        | .ok (recs, c, t) =>
          .ok (recs, { fileOpen := true, cursor := lines.length,
                       seqCount := c, totalLength := t }) := rfl
    rw [hred] at h
    cases hloop : FastaReader.readLoop none [] 0 0 lines with
    | error e => rw [hloop] at h; exact absurd h (by simp)
    | ok p =>
      obtain ⟨r2, c2, t2⟩ := p
      rw [hloop] at h
      simp only [Except.ok.injEq, Prod.mk.injEq] at h
      obtain ⟨h1, _⟩ := h
      subst h1
      obtain ⟨hc, ht⟩ := FastaReader.readLoop_counts lines none [] 0 0 _ _ _ hloop
      simp only [Nat.zero_add] at hc ht
      rw [hc, ht]
  refine ⟨?_, ?_, ?_, ?_⟩
  · intro st st' recs' hr
    rw [FastaReader.read] at hr
    try dsimp only at hr
    by_cases hopen : st.fileOpen = true
    · rw [if_pos hopen] at hr
      cases hloop : FastaReader.readLoop none [] st.seqCount st.totalLength
          (lines.drop st.cursor) with
      | error e => rw [hloop] at hr; exact absurd hr (by simp)
      | ok p =>
        obtain ⟨r2, c2, t2⟩ := p
        rw [hloop] at hr
        simp only [Except.ok.injEq, Prod.mk.injEq] at hr
        obtain ⟨h1, h2⟩ := hr
        subst h1
        subst h2
        obtain ⟨hc, ht⟩ :=
          FastaReader.readLoop_counts (lines.drop st.cursor) none [] _ _ _ _ _ hloop
        exact ⟨hc, ht⟩
    · rw [if_neg hopen] at hr
      cases hloop : FastaReader.readLoop none [] st.seqCount st.totalLength
          (lines.drop 0) with
      | error e =>
        rw [hloop] at hr
        exact absurd hr (by simp)
      | ok p =>
        obtain ⟨r2, c2, t2⟩ := p
        rw [hloop] at hr
        simp only [Except.ok.injEq, Prod.mk.injEq] at hr
        obtain ⟨h1, h2⟩ := hr
        subst h1
        subst h2
        obtain ⟨hc, ht⟩ :=
          FastaReader.readLoop_counts (lines.drop 0) none [] _ _ _ _ _ hloop
        exact ⟨hc, ht⟩
  · intro st
    unfold FastaReader.close
    split
    · exact ⟨rfl, rfl⟩
    · exact ⟨rfl, rfl⟩
  · intro st hopen hcur
    obtain ⟨fo, cur, sc, tl⟩ := st
    simp only at hopen hcur
    subst hopen
    subst hcur
    show (match FastaReader.readLoop none [] sc tl (List.drop lines.length lines) with
      | .error e => .error e
      | .ok (recs, c, t) => .ok (recs, FastaReader.State.mk true lines.length c t)) =
      Except.ok ([], FastaReader.State.mk true lines.length sc tl)
    rw [List.drop_length, FastaReader.readLoop.eq_2]
  · have key : ∀ (k : Nat) (st : FastaReader.State), st.fileOpen = false →
        (fastaConsumeKTimes lines k st).map FastaReader.getSeqScore =
          .ok (st.seqCount + k * recs.length) := by
      intro k
      induction k with
      | zero =>
        intro st hcl
        simp [fastaConsumeKTimes, Except.map, FastaReader.getSeqScore]
      | succ k ih =>
        intro st hcl
        rw [fastaConsumeKTimes]
        rw [FastaReader.read_closed lines st recs _ _ hcl hloop0]
        dsimp only
        rw [ih _ rfl]
        refine congrArg Except.ok ?_
        dsimp [FastaReader.close]
        rw [Nat.succ_mul]
        omega
    intro k
    have hk := key k FastaReader.initState rfl
    simpa [FastaReader.initState] using hk

/-- Witness for C10 as amended: two close-separated full consumptions of
the one-record demonstration FASTA give score 2. -/
theorem c10_fasta_counters_only_incremented_witness :
    (fastaConsumeKTimes fastaDemoLines 2 FastaReader.initState).map
      FastaReader.getSeqScore = .ok (2 * [fastaS1Rec].length) :=
  (c10_fasta_counters_only_incremented fastaDemoLines [fastaS1Rec] fastaDemoSt1
      (by decide)).2.2.2 2

/-- C10 counterexample: consuming `read()` twice on the same reader without
closing it in between does not double the score: the second pass starts at
the end of the file, yields nothing, and `get_seq_score()` stays 1, not
`2 * 1` as the claim requires for k = 2 consumptions of a 1-record file. -/
theorem c10_counterexample_second_read_yields_nothing :
    FastaReader.read FastaReader.initState fastaDemoLines =
      .ok ([fastaS1Rec], fastaDemoSt1) ∧
    FastaReader.read fastaDemoSt1 fastaDemoLines = .ok ([], fastaDemoSt1) ∧
    FastaReader.getSeqScore fastaDemoSt1 = 1 ∧
    ¬ FastaReader.getSeqScore fastaDemoSt1 = 2 * 1 := by
  exact ⟨by decide, by decide, by decide, by decide⟩

/-- INFO decoder exactly as claim C8 words it: every `;`-token containing
`=` splits once on its first `=`, every token without `=` becomes a flag
entry with value `"True"`, and an absent or empty INFO string gives an
empty mapping. -/
def c8ClaimInfoDecoder (infoStr : List Char) : List (List Char × List Char) :=
  if infoStr.isEmpty then []
  else
    (pySplit ';' infoStr).foldl
      (fun d kv =>
        if kv.contains '=' then
          pyDictInsert d (kv.takeWhile (fun c => !(c == '=')))
            ((kv.dropWhile (fun c => !(c == '='))).tail)
        else pyDictInsert d kv "True".data)
      []

/-- INFO decoder as claim C8 must be amended: additionally, a `.` INFO
string gives an empty mapping and empty tokens are skipped (written as a
filter over the token list, independently of the source's inline
`continue`). -/
def c8AmendedInfoDecoder (infoStr : List Char) : List (List Char × List Char) :=
  if infoStr.isEmpty || infoStr == ".".data then []
  else
    ((pySplit ';' infoStr).filter (fun kv => !kv.isEmpty)).foldl
      (fun d kv =>
        if kv.contains '=' then
          pyDictInsert d (kv.takeWhile (fun c => !(c == '=')))
            ((kv.dropWhile (fun c => !(c == '='))).tail)
        else pyDictInsert d kv "True".data)
      []

theorem foldl_skip_empty {β : Type} (g : β → List Char → β) :
    ∀ (l : List (List Char)) (d : β),
      l.foldl (fun d kv => if kv.isEmpty then d else g d kv) d =
        (l.filter (fun kv => !kv.isEmpty)).foldl g d := by
  intro l
  induction l with
  | nil => intro d; rfl
  | cons kv rest ih =>
    intro d
    rw [List.foldl_cons, List.filter_cons]
    by_cases hkv : kv.isEmpty = true
    · simp only [hkv, if_true, Bool.not_true, if_false]
      exact ih d
    · simp only [hkv, if_false, Bool.not_false, if_true, List.foldl_cons]
      exact ih (g d kv)

/-- The variant record parsed from the data line of `vcfDemoLines`. -/
def vcfDemoRec : VariantRecord :=
  { id := "chr1:100".data, chrom := "chr1".data, pos := 100, ref := "A".data,
    alt := "T".data, info := [("DP".data, "10".data)], filter := ".".data,
    qual := none }

/-- Claim C8 as amended: the biodatareader INFO decoder returns the empty
mapping for an absent, empty or `.` INFO string, and otherwise processes
every non-empty `;`-token, splitting once on the first `=` or storing the
flag value `"True"` (empty tokens are skipped); the minimal VCF data line
`chr1 100 . A T . . DP=10` yields `info = {"DP": "10"}`. -/
theorem c8_vcf_info_decoding (s : List Char) :
    VcfReader.parseInfo s = c8AmendedInfoDecoder s ∧
    VcfReader.parseInfo "DP=30;AF=0.5;DB".data =
      [("DP".data, "30".data), ("AF".data, "0.5".data), ("DB".data, "True".data)] ∧
    VcfReader.read VcfReader.initState vcfDemoLines =
      .ok ([vcfDemoRec], vcfDemoParsedState) := by
  refine ⟨?_, by decide, by decide⟩
  by_cases hc : (s.isEmpty || s == ".".data) = true
  · rw [VcfReader.parseInfo, c8AmendedInfoDecoder, if_pos hc, if_pos hc]
  · rw [VcfReader.parseInfo, c8AmendedInfoDecoder, if_neg hc, if_neg hc]
    exact foldl_skip_empty _ (pySplit ';' s) []

/-- C8 counterexample: the biodatareader INFO decoder skips empty `;`-tokens
and maps `.` to the empty mapping, whereas the claim as stated makes every
token without `=` (including the empty token after a trailing `;`, and the
token `.`) a flag entry with value `"True"`; the two disagree at the INFO
strings `"DP=10;"` and `"."`. -/
theorem c8_counterexample_empty_and_dot_tokens :
    VcfReader.parseInfo "DP=10;".data = [("DP".data, "10".data)] ∧
    c8ClaimInfoDecoder "DP=10;".data =
      [("DP".data, "10".data), ([], "True".data)] ∧
    VcfReader.parseInfo "DP=10;".data ≠ c8ClaimInfoDecoder "DP=10;".data ∧
    VcfReader.parseInfo ".".data = [] ∧
    c8ClaimInfoDecoder ".".data = [(".".data, "True".data)] := by
  exact ⟨by decide, by decide, by decide, by decide, by decide⟩

theorem VcfReader.parseHeader_ok_flag (st st' : VcfReader.State)
    (lines : List (List Char))
    (h : VcfReader.parseHeader st lines = .ok st') : st'.headerParsed = true := by
  rw [VcfReader.parseHeader] at h
  split at h
  · rename_i hflag
    injection h with h'
    subst h'
    exact hflag
  · split at h
    · injection h with h'
      subst h'
      rfl
    · exact absurd h (by simp)

/-- Demonstration VCF header block: one `##` meta line and the `#CHROM`
column line. -/
def c9DemoLines : List (List Char) :=
  ["##a\n".data, "#CHROM\tPOS\tID\tREF\tALT\n".data]

/-- Claim C9 as amended: `SamReader._ensure_header_parsed` is idempotent,
and a second run of the biodatareader `VcfReader._parse_header` after a
successful one is a no-op on the header state; the legacy
`VcfReader._parse_header` in src/vcf_reader.py is not idempotent (see the
counterexample). -/
theorem c9_header_parse_idempotent (samSt : SamReader.HeaderState)
    (samLines : List (List Char)) (vst vst' : VcfReader.State)
    (vlines : List (List Char))
    (h : VcfReader.parseHeader vst vlines = .ok vst') :
    SamReader.ensureHeaderParsed (SamReader.ensureHeaderParsed samSt samLines)
        samLines =
      SamReader.ensureHeaderParsed samSt samLines ∧
    VcfReader.parseHeader vst' vlines = .ok vst' := by
  constructor
  · have hflag : (SamReader.ensureHeaderParsed samSt samLines).headerParsed = true := by
      rw [SamReader.ensureHeaderParsed]
      by_cases hp : samSt.headerParsed = true
      · rw [if_pos hp]
        exact hp
      · rw [if_neg hp]
    rw [SamReader.ensureHeaderParsed, if_pos hflag]
  · have hflag' := VcfReader.parseHeader_ok_flag vst vst' vlines h
    rw [VcfReader.parseHeader, if_pos hflag']

/-- Witness for C9 as amended: on the demonstration SAM and VCF headers,
the second header-parse run changes nothing. -/
theorem c9_header_parse_idempotent_witness :
    SamReader.ensureHeaderParsed
        (SamReader.ensureHeaderParsed SamReader.initState samDemoLines) samDemoLines =
      SamReader.ensureHeaderParsed SamReader.initState samDemoLines ∧
    VcfReader.parseHeader vcfDemoParsedState vcfDemoLines = .ok vcfDemoParsedState :=
  c9_header_parse_idempotent SamReader.initState samDemoLines VcfReader.initState
    vcfDemoParsedState vcfDemoLines (by decide)

/-- C9 counterexample: the legacy `VcfReader._parse_header` in
src/vcf_reader.py has no parsed-flag guard, so running it twice appends the
`##` meta-header lines a second time: the header state after two runs
differs from the state after one. -/
theorem c9_counterexample_legacy_header_duplicates :
    LegacyVcfReader.parseHeader
        (LegacyVcfReader.parseHeader LegacyVcfReader.initState c9DemoLines)
        c9DemoLines ≠
      LegacyVcfReader.parseHeader LegacyVcfReader.initState c9DemoLines ∧
    (LegacyVcfReader.parseHeader
        (LegacyVcfReader.parseHeader LegacyVcfReader.initState c9DemoLines)
        c9DemoLines).headerLines = ["##a".data, "##a".data] ∧
    (LegacyVcfReader.parseHeader LegacyVcfReader.initState c9DemoLines).headerLines =
      ["##a".data] := by
  exact ⟨by decide, by decide, by decide⟩
